import Mathlib

/-!
Verification of `src/sounds.h` from `wuxxin/intercom_upgrade`.

The header defines a static constant byte vector `ding_dong_raw` holding
four zero bytes, and a function `get_sound(name)` that returns a pointer
to `ding_dong_raw` when `name == "ding_dong"` and a null pointer
otherwise.  We embed the byte vector as a list of naturals (each entry an
8-bit value from the source literal), the nullable pointer as `Option`,
and the exact `std::string` comparison as Lean `String` equality.

For the claims about state (immutability of the registry, purity of the
lookup, safety under interleaved callers) we additionally model the
process-wide registry explicitly as an association list from keys to byte
sequences, with a step function that performs one lookup and returns the
(unchanged) registry together with the result, and a trace runner that
executes an arbitrary sequence of lookup calls.
-/

/-- The static constant `ding_dong_raw` from `src/sounds.h`:
`{0x00, 0x00, 0x00, 0x00}`, a vector of `uint8_t`. -/
def ding_dong_raw : List Nat := [0x00, 0x00, 0x00, 0x00]

/-- `get_sound` from `src/sounds.h`: exact string comparison against
`"ding_dong"`; a null pointer (here `none`) signals absence. -/
def get_sound (name : String) : Option (List Nat) :=
  if name = "ding_dong" then some ding_dong_raw else none

/-- The registry's state: a mapping from identifiers to byte sequences,
as an association list. -/
def SoundRegistry : Type := List (String × List Nat)

/-- The registry content at process start: exactly one entry,
`"ding_dong" ↦ ding_dong_raw` (the file-scope static initialization in
`src/sounds.h`). -/
def initRegistry : SoundRegistry := [("ding_dong", ding_dong_raw)]

/-- Resolver over an explicit registry state: first entry whose key
equals the name exactly; `none` when no key matches. -/
def lookupReg : SoundRegistry → String → Option (List Nat)
  | [], _ => none
  | (k, v) :: rest, name => if name = k then some v else lookupReg rest name

/-- One lookup call as a state transition: it returns the result and the
registry after the call.  `get_sound` only reads `ding_dong_raw`, so the
state after the call is the state before it. -/
def lookupStep (r : SoundRegistry) (name : String) :
    SoundRegistry × Option (List Nat) :=
  (r, lookupReg r name)

/-- Run a sequence of lookup calls, threading the registry state, and
return the final registry state. -/
def runTrace (r : SoundRegistry) (names : List String) : SoundRegistry :=
  names.foldl (fun st n => (lookupStep st n).1) r

/-- Run a sequence of lookup calls, threading the registry state, and
collect the result each call observes at the state it runs in. -/
def traceResults (r : SoundRegistry) : List String → List (Option (List Nat))
  | [] => []
  | n :: rest =>
      (lookupStep r n).2 :: traceResults (lookupStep r n).1 rest

/-! ### Helper lemmas -/

/-- A lookup step never changes the registry state. -/
theorem lookupStep_fst (r : SoundRegistry) (name : String) :
    (lookupStep r name).1 = r := rfl

/-- Running any trace of lookup calls leaves any registry state fixed. -/
theorem runTrace_id (r : SoundRegistry) (names : List String) :
    runTrace r names = r := by
  induction names generalizing r with
  | nil => rfl
  | cons n rest ih => simp only [runTrace, List.foldl, lookupStep] at ih ⊢; exact ih r

/-- Over the initial registry, the explicit-state resolver agrees with
`get_sound`. -/
theorem lookupReg_initRegistry (s : String) :
    lookupReg initRegistry s = get_sound s := by
  simp [lookupReg, initRegistry, get_sound]

/-! ### Claims -/

/-- C1: looking up exactly the key `"ding_dong"` yields a present result
whose byte sequence is exactly the four zero bytes, of length 4. -/
theorem get_sound_ding_dong :
    get_sound "ding_dong" = some ding_dong_raw ∧
      ding_dong_raw = [0, 0, 0, 0] ∧ ding_dong_raw.length = 4 := by
  refine ⟨?_, rfl, rfl⟩
  simp [get_sound]

/-- C2: for every string different from `"ding_dong"` — empty string,
case variants, substrings included — the lookup returns an absent result:
the match is an exact, case-sensitive comparison of the whole string. -/
theorem get_sound_not_found (s : String) (h : s ≠ "ding_dong") :
    get_sound s = none := by
  simp [get_sound, h]

/-- Witness for C2: `"DING_DONG"` differs from `"ding_dong"` and its
lookup is absent. -/
theorem get_sound_not_found_witness :
    "DING_DONG" ≠ "ding_dong" ∧ get_sound "DING_DONG" = none :=
  ⟨by decide, get_sound_not_found "DING_DONG" (by decide)⟩

/-- C3: the registry content is invariant under every operation: any
sequence of lookup calls, with any mix of valid and invalid keys, leaves
the registry equal to its initial content — the key set stays exactly the
one present at initialization and every stored byte sequence is
unchanged. -/
theorem registry_invariant (names : List String) :
    runTrace initRegistry names = initRegistry :=
  runTrace_id initRegistry names

/-- C4: the only outcomes of a lookup are the two cases of the optional
return value — a present byte sequence or the absent result; no input
produces any other outcome. -/
theorem get_sound_no_error (s : String) :
    (∃ bytes, get_sound s = some bytes) ∨ get_sound s = none := by
  unfold get_sound
  by_cases h : s = "ding_dong" <;> simp [h]

/-- C5: the lookup is pure and deterministic: a call at any reachable
state leaves the registry unmodified, and its result depends only on the
input string — it equals the result over the initial registry, so two
runs with the same input produce the same result. -/
theorem get_sound_pure (names : List String) (s : String) :
    (lookupStep (runTrace initRegistry names) s).1
        = runTrace initRegistry names ∧
      (lookupStep (runTrace initRegistry names) s).2 = get_sound s := by
  refine ⟨rfl, ?_⟩
  rw [runTrace_id]
  exact lookupReg_initRegistry s

/-- C6: repeated lookups with the key `"ding_dong"` are idempotent:
after any sequence of prior calls, a call with `"ding_dong"` returns the
very content `ding_dong_raw`, hence any two such calls observe
byte-identical content. -/
theorem get_sound_idempotent (names : List String) :
    lookupReg (runTrace initRegistry names) "ding_dong"
      = some ding_dong_raw := by
  rw [runTrace_id, lookupReg_initRegistry]
  simp [get_sound]

/-- C7: the lookup is total over all strings: every input, of any length
and content, returns normally, present exactly when the input equals the
key `"ding_dong"` and absent otherwise — no validation, no error or
undefined branch. -/
theorem get_sound_total (s : String) :
    (get_sound s).isSome = (s == "ding_dong") ∧
      (get_sound s).isNone = !(s == "ding_dong") := by
  unfold get_sound
  by_cases h : s = "ding_dong" <;> simp [h]

/-- C8: under any interleaving of lookup calls by any number of callers,
with any mix of valid and invalid keys, the stored content is never
altered, and every call observes the full initial content: each call's
result equals the pure `get_sound` of its argument, so no caller can
observe partial or corrupted state. -/
theorem get_sound_concurrent (names : List String) :
    runTrace initRegistry names = initRegistry ∧
      traceResults initRegistry names = names.map get_sound := by
  refine ⟨runTrace_id initRegistry names, ?_⟩
  induction names with
  | nil => rfl
  | cons n rest ih =>
      simp only [traceResults, lookupStep, List.map, ih]
      rw [lookupReg_initRegistry]

/-- C9: for every input string, the result is either absent or the one
stored asset `ding_dong_raw` itself — a present result is never a fresh
or distinct byte sequence. -/
theorem get_sound_only_asset (s : String) :
    get_sound s = none ∨ get_sound s = some ding_dong_raw := by
  unfold get_sound
  by_cases h : s = "ding_dong" <;> simp [h]

/-- C10: the outcome depends only on whether the input equals
`"ding_dong"`: any two inputs both different from the key produce equal
(absent) results, so no other property of the input influences the
result. -/
theorem get_sound_noninterference (s t : String)
    (hs : s ≠ "ding_dong") (ht : t ≠ "ding_dong") :
    get_sound s = get_sound t := by
  simp [get_sound, hs, ht]

/-- Witness for C10: two concrete non-key inputs of different lengths
and content give equal results. -/
theorem get_sound_noninterference_witness :
    "a" ≠ "ding_dong" ∧ "ding" ≠ "ding_dong" ∧
      get_sound "a" = get_sound "ding" :=
  ⟨by decide, by decide,
    get_sound_noninterference "a" "ding" (by decide) (by decide)⟩
